import Mathlib

/-!
Shallow embedding of the core of `subsearch.py`: the clip-boundary resolver
`get_clip_times`, the analysis cache (`Cache`), path handling (modelled after
CPython's `posixpath`), and the index operations `Database.add`,
`Database.remove`, `Database.search`.

Modelling conventions:
* floats are modelled as rationals (the arithmetic in the source is plain
  field arithmetic on small values);
* subtitle timestamps are integers (milliseconds), as produced by pysubs2;
* external collaborators (ffmpeg subtitle extraction, volume/silence
  detection, the filesystem, the whoosh query engine) are parameters of the
  model (`Env`, the `matcher` argument of `Database.search`);
* Python exceptions are modelled with `Except`; the only exception types the
  modelled code paths can raise are `subprocess.CalledProcessError` and
  `ValueError` (plus a fuel-exhaustion marker standing for `RecursionError`,
  which real finite directory trees never hit).
-/

/-- Silence interval as produced by `FFmpeg.read_silences`:
`(start_seconds, end_seconds, duration_seconds)`. -/
abbrev Silence := ℚ × ℚ × ℚ

/-- The loop guard of the pre-roll scan in `get_clip_times`
(subsearch.py lines 500-501): the interval's end lies within
`[ev_start - wiggle, ev_start + wiggle]`. -/
def prePred (ev_start wiggle : ℚ) (t : Silence) : Bool :=
  decide (ev_start - wiggle ≤ t.2.1) && decide (t.2.1 ≤ ev_start + wiggle)

/-- The loop guard of the post-roll scan in `get_clip_times`
(subsearch.py lines 511-512): the interval's start lies within
`[ev_end - wiggle, ev_end + wiggle]`. -/
def postPred (ev_end wiggle : ℚ) (t : Silence) : Bool :=
  decide (ev_end - wiggle ≤ t.1) && decide (t.1 ≤ ev_end + wiggle)

/-- Model of `get_clip_times(event, silences, wiggle)` (subsearch.py
lines 492-521).  `evStart`/`evEnd` are `event.start`/`event.end` in integer
milliseconds.  The two `for ... break` loops are first-match searches: the
pre-roll loop scans `silences` in order, the post-roll loop scans
`silences[::-1]` (the reversed list). -/
def get_clip_times (evStart evEnd : ℤ) (silences : List Silence) (wiggle : ℚ) :
    ℚ × ℚ :=
  let ev_start : ℚ := (evStart : ℚ) / 1000
  let ev_end : ℚ := (evEnd : ℚ) / 1000
  let clip_start :=
    match silences.find? (prePred ev_start wiggle) with
    | some t => max (max (t.2.1 - min (t.2.2 / 3) (wiggle / 2)) (ev_start - wiggle)) 0
    | none => ev_start - wiggle / 2
  let clip_duration :=
    match silences.reverse.find? (postPred ev_end wiggle) with
    | some t =>
        max (min ((t.1 + min (t.2.2 / 3) (wiggle / 2)) - clip_start)
              ((ev_end + wiggle) - clip_start)) 0
    | none => (ev_end - ev_start) + wiggle
  (clip_start, clip_duration)

example : get_clip_times 1000 3000 [] 1 = (1/2, 3) := by
  norm_num [get_clip_times]

example : (get_clip_times 10000 12000 [(92/10, 96/10, 4/10)] 1).1 = 142/15 := by
  norm_num [get_clip_times, List.find?, prePred, postPred]

/-! ### Exceptions

The exception kinds raised by the modelled code paths:
`subprocess.CalledProcessError` (ffmpeg exits non-zero) and `ValueError`
(no subtitle track; mismatched silence detections).  `recursionError` is the
fuel-exhaustion marker of the directory recursion model. -/

inductive PyErr where
  | calledProcessError
  | valueError
  | recursionError
deriving DecidableEq

/-- JSON values, as stored by the cache (`json.dump`/`json.load`).  The
program only ever caches numbers, strings and arrays (volume statistics and
silence lists); `null` is Python's `None`. -/
inductive JVal where
  | null
  | num (q : ℚ)
  | str (s : String)
  | arr (l : List JVal)

/-! ### The analysis cache (`Cache`, subsearch.py lines 249-286)

The store is modelled as a map from storage names to the JSON value held in
the compressed file at that name; `json.dump` followed by `json.load` is the
identity on JSON-serializable values, so serialization is not modelled
separately.  The cache is generic in the key type (the program instantiates
it at `(path, tag)` string pairs). -/

/-- Models `Cache._normalize_key` (lines 284-286): the storage filename
`sha1(json.dumps(key)).hexdigest() + '.json.gz'` inside the cache directory.
`json.dumps` is injective on the keys the program uses, and the spec treats
sha1 collisions as impossible ("accepted as a (remote) risk of the hash"),
so the digest is modelled as an injective function of the key — the
identity. -/
def normalize_key {κ : Type} (key : κ) : κ := key

/-- A cache directory: a map from storage names (normalized keys) to the
value stored in the file of that name, `none` when no such file exists. -/
abbrev CacheStore (κ ν : Type) := κ → Option ν

/-- The `miss` argument of `Cache.get`: Python duck-types it at runtime
(`miss()` raising `TypeError` means it was not callable and is returned
as a plain default).  `plain v` is a non-callable default (the default
`miss=None` is `plain JVal.null`); `fn f` is a callback, which may itself
raise (the lambdas passed in the search command call ffmpeg). -/
inductive Miss (ν : Type) where
  | plain (v : ν)
  | fn (f : Unit → Except PyErr ν)

/-- Models `Cache.set` (lines 272-275): writes the serialized value at the
key's storage name (a whole-file replace) and returns the value. -/
def cache_set {κ ν : Type} [DecidableEq κ] (store : CacheStore κ ν) (key : κ)
    (v : ν) : CacheStore κ ν :=
  fun q => if q = normalize_key key then some v else store q

/-- Models `Cache.get` (lines 258-269).  Returns the value, the store after
the call, and the number of times a miss callback was invoked (0 or 1).
If the file at the storage name exists it is loaded and returned; otherwise a
callback miss is invoked, its result stored via `cache_set` and returned —
unless the callback raises, in which case the exception propagates; a plain
default is returned unchanged with no store write. -/
def cache_get {κ ν : Type} [DecidableEq κ] (store : CacheStore κ ν) (key : κ)
    (miss : Miss ν) : Except PyErr (ν × CacheStore κ ν × Nat) :=
  match store (normalize_key key) with
  | some v => .ok (v, store, 0)
  | none =>
    match miss with
    | .plain v => .ok (v, store, 0)
    | .fn f => (f ()).map fun v => (v, cache_set store key v, 1)

/-- Models `Cache.pop` (lines 277-282): `get(key)` (with Python's default
`miss=None`, modelled by the caller passing the `dflt` that stands for
`None`), then unlink the storage file, ignoring a missing-file error. -/
def cache_pop {κ ν : Type} [DecidableEq κ] (dflt : ν) (store : CacheStore κ ν)
    (key : κ) : ν × CacheStore κ ν :=
  let v :=
    match cache_get store key (.plain dflt) with
    | .ok (v, _, _) => v
    | .error _ => dflt
  (v, fun q => if q = normalize_key key then none else store q)

/-! ### POSIX paths (`os.path` as used by subsearch.py)

The program resolves paths with `os.path.normpath`, `os.path.join`,
`os.path.relpath` and `os.path.abspath`.  These are modelled character by
character after CPython's `posixpath`, on the underlying `List Char` of the
path string.  `os.getcwd()` is a parameter (`cwd`). -/

/-- `s.startswith('/')`, i.e. `posixpath.isabs`. -/
def isAbsData : List Char → Bool
  | [] => false
  | c :: _ => c == '/'

/-- `s.split('/')` on characters: always returns a nonempty list of
slash-free pieces. -/
def splitSep : List Char → List (List Char)
  | [] => [[]]
  | c :: rest =>
    if c = '/' then [] :: splitSep rest
    else
      match splitSep rest with
      | [] => [[c]]
      | p :: ps => (c :: p) :: ps

/-- `'/'.join(pieces)` on characters. -/
def intercalateSep : List (List Char) → List Char
  | [] => []
  | [p] => p
  | p :: q :: rest => p ++ '/' :: intercalateSep (q :: rest)

/-- The `initial_slashes` value of `posixpath.normpath`: 0 for a relative
path, 2 when the path starts with exactly two slashes, 1 otherwise. -/
def islashesData (s : List Char) : Nat :=
  if s.take 1 = ['/'] then
    if s.take 2 = ['/', '/'] ∧ ¬s.take 3 = ['/', '/', '/'] then 2 else 1
  else 0

/-- The component loop of `posixpath.normpath`: drops empty and `'.'`
components, and resolves `'..'` against the accumulated components
(`acc` holds `new_comps` reversed; `acc.head?` is `new_comps[-1]`).
A leading `'..'` is kept on relative paths and dropped on absolute ones. -/
def normComps (hasSlash : Bool) (acc : List (List Char)) :
    List (List Char) → List (List Char)
  | [] => acc.reverse
  | c :: rest =>
    if c = [] ∨ c = ['.'] then normComps hasSlash acc rest
    else if ¬c = ['.', '.'] ∨ (hasSlash = false ∧ acc = []) ∨
        acc.head? = some ['.', '.'] then
      normComps hasSlash (c :: acc) rest
    else
      match acc with
      | [] => normComps hasSlash [] rest
      | _ :: as => normComps hasSlash as rest

/-- A path component that survives the `normpath` loop untouched: nonempty,
not `'.'`, not `'..'`, slash-free. -/
def CleanComp (c : List Char) : Prop :=
  c ≠ [] ∧ c ≠ ['.'] ∧ c ≠ ['.', '.'] ∧ '/' ∉ c

/-- `posixpath.normpath` on characters. -/
def normpathData (s : List Char) : List Char :=
  if s = [] then ['.']
  else
    let k := islashesData s
    let comps := normComps (k != 0) [] (splitSep s)
    let out := List.replicate k '/' ++ intercalateSep comps
    if out = [] then ['.'] else out

/-- `posixpath.join(a, b)` on characters (two-argument form). -/
def joinPathData (a b : List Char) : List Char :=
  if isAbsData b then b
  else if a = [] ∨ a.getLast? = some '/' then a ++ b
  else a ++ '/' :: b

/-- `posixpath.abspath` on characters: join onto the working directory when
relative, then normalize. -/
def abspathData (cwd s : List Char) : List Char :=
  if isAbsData s then normpathData s else normpathData (joinPathData cwd s)

/-- `len(genericpath.commonprefix([a, b]))` for component lists. -/
def commonPrefixLen : List (List Char) → List (List Char) → Nat
  | a :: as, b :: bs => if a = b then commonPrefixLen as bs + 1 else 0
  | _, _ => 0

/-- `posixpath.relpath(path, start)` on characters (for the nonempty paths
the program passes; the `ValueError` on an empty `path` is not modelled).
Both arguments are made absolute against `cwd`, split into nonempty
components, and the result climbs out of the uncommon part of `start`. -/
def relpathData (cwd path start : List Char) : List Char :=
  let pl := (splitSep (abspathData cwd path)).filter fun c => !c.isEmpty
  let sl := (splitSep (abspathData cwd start)).filter fun c => !c.isEmpty
  let i := commonPrefixLen sl pl
  let rel := List.replicate (sl.length - i) ['.', '.'] ++ pl.drop i
  if rel = [] then ['.'] else intercalateSep rel

/-- `os.path.normpath` on strings. -/
def normpath (s : String) : String := ⟨normpathData s.data⟩

/-- `os.path.join` on strings. -/
def joinPath (a b : String) : String := ⟨joinPathData a.data b.data⟩

/-- `os.path.abspath` on strings, with the working directory explicit. -/
def abspath (cwd s : String) : String := ⟨abspathData cwd.data s.data⟩

/-- `os.path.relpath` on strings, with the working directory explicit. -/
def relpath (cwd path start : String) : String :=
  ⟨relpathData cwd.data path.data start.data⟩

/-- `os.path.isabs` on strings. -/
def isabs (s : String) : Bool := isAbsData s.data

example : normpath "/a/./b//../c" = "/a/c" := by decide
example : normpath "a/../../b" = "../b" := by decide
example : normpath "//a" = "//a" := by decide
example : normpath "" = "." := by decide
example : joinPath "db" "a.mkv" = "db/a.mkv" := by decide
example : joinPath "db" "/x/a.mkv" = "/x/a.mkv" := by decide
example : abspath "/w" "db/a.mkv" = "/w/db/a.mkv" := by decide
example : relpath "/w" "db/a.mkv" "db" = "a.mkv" := by decide
example : relpath "/w" "/x/a" "/w/db" = "../../x/a" := by decide

/-! ### The subtitle index (`Database`, subsearch.py lines 288-389)

The whoosh index is modelled as the list of stored documents; a writer
transaction is an atomic append / delete of that list.  The external
collaborators (ffmpeg via `FFmpeg`, pysubs2, the filesystem) are the fields
of `Env`.  `DBState` additionally carries ghost instrumentation: the list of
reports sent to the caller-supplied `report` callback, and the path/argument
of every `read_volume_stats` / `read_silences` subprocess invocation. -/

/-- One subtitle event as produced by extraction
(`pysubs2.SSAFile.from_string(ff.read_subs(path)).events[i]`):
start/end in integer milliseconds, comment flag, markup-stripped text. -/
structure SubEvent where
  start : Int
  stop : Int
  isComment : Bool
  plaintext : String
deriving DecidableEq

/-- One document stored in the whoosh index (`writer.add_document(...)`,
line 361): `stop` is the `end` field of the schema. -/
structure Doc where
  path : String
  start : Int
  stop : Int
  content : String
deriving DecidableEq

/-- The `Result` record yielded by `Database.search` (lines 238-247);
`stop` is the source's `end`. -/
structure Result where
  path : String
  content : String
  start : Int
  stop : Int
deriving DecidableEq

/-- The external world of a `Database` call: the process working directory,
the filesystem queries used by the directory recursion, the ffmpeg
collaborator, and whether a `report` callback was supplied. -/
structure Env where
  cwd : String
  isDir : String → Bool
  listdir : String → List String
  readSubs : String → Except PyErr (List SubEvent)
  readVolumeStats : String → Except PyErr (ℚ × ℚ)
  readSilences : String → ℚ → ℚ → Except PyErr (List Silence)
  report : Bool

/-- The persistent state of a `Database` plus ghost instrumentation.
`dbPath`/`relative` are the `path`/`relative` attributes, `docs` the indexed
documents, `cache` the audio-cache directory keyed by `(path, tag)` pairs.
`reports` collects the strings passed to the `report` callback;
`volumeCalls` and `silenceCalls` record the arguments of every
`ff.read_volume_stats(path)` and `ff.read_silences(path, noise, duration)`
invocation. -/
structure DBState where
  dbPath : String
  relative : Bool
  docs : List Doc
  cache : CacheStore (String × String) JVal
  reports : List String
  volumeCalls : List String
  silenceCalls : List (String × ℚ × ℚ)

/-- The stored-path resolution shared by `add` and `remove`
(lines 342-346 and 376-380): under the relative policy,
`os.path.normpath(os.path.relpath(path, self.path))`; otherwise
`os.path.abspath(path)`. -/
def storePath (cwd dbPath : String) (relative : Bool) (p : String) : String :=
  if relative then normpath (relpath cwd p dbPath) else abspath cwd p

/-- `if report: report(msg)` — the message is appended to the ghost report
log when a callback was supplied. -/
def reportMsg (env : Env) (st : DBState) (msg : String) : DBState :=
  if env.report then { st with reports := st.reports ++ [msg] } else st

/-- `os.path.normpath(os.path.join(self.path, d['path']))` — the path
resolution applied to every stored path yielded by `Database.search`
(line 328). -/
def resolveResultPath (dbPath stored : String) : String :=
  normpath (joinPath dbPath stored)

/-- `json.dump` image of a `read_volume_stats` result (a pair of floats). -/
def encodeVol (v : ℚ × ℚ) : JVal := .arr [.num v.1, .num v.2]

/-- `json.dump` image of a `read_silences` result (a list of triples). -/
def encodeSilences (l : List Silence) : JVal :=
  .arr (l.map fun t => .arr [.num t.1, .num t.2.1, .num t.2.2])

/-- Lexicographic comparison of character lists by code point — Python's
string ordering. -/
def leChars : List Char → List Char → Bool
  | [], _ => true
  | _ :: _, [] => false
  | a :: as, b :: bs => if a = b then leChars as bs else decide (a < b)

/-- Python's `a <= b` on strings. -/
def leString (a b : String) : Bool := leChars a.data b.data

/-- Insert a string into an already-sorted list (ascending). -/
def insertSorted (x : String) : List String → List String
  | [] => [x]
  | y :: ys => if leString x y then x :: y :: ys else y :: insertSorted x ys

/-- Python's `sorted` on a list of strings (ascending lexicographic order by
code point); used by `Database.apply_recursive` (line 332). -/
def sortStrings (l : List String) : List String := l.foldr insertSorted []

example : sortStrings ["b.mkv", "a.mkv"] = ["a.mkv", "b.mkv"] := by decide

/-- The file branch of `Database.add` (lines 336-368, after the `isdir`
dispatch).  The stored path is resolved per the relative policy and
reported; extraction runs on the original path (`realpath`); a
`CalledProcessError` or `ValueError` from extraction is caught and reported,
skipping the file; otherwise every non-comment event is indexed and the
batch committed atomically; with `process_audio`, volume statistics and
silences are read **for the resolved stored path** and cached under
`(storedPath, "volume_stats")` / `(storedPath, "silences")` — failures of
those reads are NOT caught here and propagate. -/
def Database.addFile (env : Env) (st : DBState) (p : String)
    (relativeArg : Option Bool) (processAudio : Bool) (wiggle : ℚ) :
    Except PyErr DBState :=
  let relative := relativeArg.getD st.relative
  let stored := storePath env.cwd st.dbPath relative p
  let st1 := reportMsg env st stored
  match env.readSubs p with
  | .error .recursionError => .error .recursionError
  | .error _ => .ok (reportMsg env st1 "!!! Error extracting subtitles...")
  | .ok evs =>
    let docs := (evs.filter fun ev => !ev.isComment).map fun ev =>
      Doc.mk stored ev.start ev.stop ev.plaintext
    let st2 := { st1 with docs := st1.docs ++ docs }
    if processAudio then
      let st3 := { st2 with volumeCalls := st2.volumeCalls ++ [stored] }
      match env.readVolumeStats stored with
      | .error e => .error e
      | .ok vols =>
        let st4 := { st3 with
          cache := cache_set st3.cache (stored, "volume_stats") (encodeVol vols) }
        let noise := vols.1 * (9 / 10)
        let dur := (3 / 10) * wiggle
        let st5 := { st4 with silenceCalls := st4.silenceCalls ++ [(stored, noise, dur)] }
        match env.readSilences stored noise dur with
        | .error e => .error e
        | .ok sils =>
          .ok { st5 with
            cache := cache_set st5.cache (stored, "silences") (encodeSilences sils) }
    else
      .ok st2

/-- `Database.add` (lines 336-368) with the directory dispatch: a directory
is recursed via `apply_recursive` in sorted order, forwarding the subtitle
source, the report callback, the resolved relative policy and the
audio-processing flag — but NOT `wiggle`, which therefore resets to its
default `1.0` in the recursive calls (line 340).  `fuel` bounds the
recursion depth (real directory trees are finite). -/
def Database.add (env : Env) :
    Nat → DBState → String → Option Bool → Bool → ℚ → Except PyErr DBState
  | 0, _, _, _, _, _ => .error .recursionError
  | fuel + 1, st, p, relativeArg, processAudio, wiggle =>
    let relative := relativeArg.getD st.relative
    if env.isDir p then
      (sortStrings (env.listdir p)).foldlM
        (fun acc entry =>
          Database.add env fuel acc (joinPath p entry) (some relative) processAudio 1)
        st
    else
      Database.addFile env st p relativeArg processAudio wiggle

/-- The file branch of `Database.remove` (lines 370-389): resolve and report
the stored path, delete every document whose stored path equals it
(`writer.delete_by_term('path', path)` — a no-op when none match), then pop
the two cache entries for that path. -/
def Database.removeFile (env : Env) (st : DBState) (p : String)
    (relativeArg : Option Bool) : DBState :=
  let relative := relativeArg.getD st.relative
  let stored := storePath env.cwd st.dbPath relative p
  let st1 := reportMsg env st stored
  let st2 := { st1 with docs := st1.docs.filter fun d => d.path != stored }
  let st3 := { st2 with
    cache := (cache_pop JVal.null st2.cache (stored, "volume_stats")).2 }
  { st3 with cache := (cache_pop JVal.null st3.cache (stored, "silences")).2 }

/-- `Database.remove` (lines 370-389) with the directory dispatch, which
forwards the report callback and the resolved relative policy. -/
def Database.remove (env : Env) :
    Nat → DBState → String → Option Bool → Except PyErr DBState
  | 0, _, _, _ => .error .recursionError
  | fuel + 1, st, p, relativeArg =>
    let relative := relativeArg.getD st.relative
    if env.isDir p then
      (sortStrings (env.listdir p)).foldlM
        (fun acc entry => Database.remove env fuel acc (joinPath p entry) (some relative))
        st
    else
      .ok (Database.removeFile env st p relativeArg)

/-- `Database.search` (lines 323-329).  The whoosh query parser and searcher
are the out-of-scope relevance engine; a search is modelled by the predicate
`matcher` selecting the matching stored documents.  Every hit's stored path
is joined back onto the index root and normalized (line 328) before the
`Result` is yielded. -/
def Database.search (matcher : Doc → Bool) (st : DBState) : List Result :=
  (st.docs.filter matcher).map fun d =>
    Result.mk (resolveResultPath st.dbPath d.path) d.content d.start d.stop

/-- The loop of the `add` CLI command (lines 413-414): `db.add` on each
requested path in turn, with no exception handling around the loop — an
uncaught exception from one path aborts the remaining paths. -/
def batch_add (env : Env) (fuel : Nat) (st : DBState) (paths : List String)
    (relativeArg : Option Bool) (processAudio : Bool) (wiggle : ℚ) :
    Except PyErr DBState :=
  paths.foldlM
    (fun acc p => Database.add env fuel acc p relativeArg processAudio wiggle) st

/-! ### Concrete environments and states used by the witnesses -/

/-- An empty cache directory. -/
def emptyCache : CacheStore (String × String) JVal := fun _ => none

/-- A fresh absolute-policy database at `/d`. -/
def st0 : DBState :=
  { dbPath := "/d", relative := false, docs := [], cache := emptyCache,
    reports := [], volumeCalls := [], silenceCalls := [] }

/-- A fresh relative-policy database at `db` (a directory relative to the
working directory `/w`). -/
def stRel : DBState :=
  { dbPath := "db", relative := true, docs := [], cache := emptyCache,
    reports := [], volumeCalls := [], silenceCalls := [] }

/-- Collaborators for which everything succeeds: extraction yields one
dialogue event and one comment, audio analysis succeeds. -/
def envOk : Env :=
  { cwd := "/c", isDir := fun _ => false, listdir := fun _ => [],
    readSubs := fun _ => .ok [⟨0, 10, false, "hello"⟩, ⟨2, 3, true, "note"⟩],
    readVolumeStats := fun _ => .ok (-20, -1),
    readSilences := fun _ _ _ => .ok [(1, 2, 1)],
    report := true }

/-- Collaborators for which subtitle extraction fails with `ValueError`
("No subtitle tracks found"). -/
def envExtractFail : Env :=
  { cwd := "/c", isDir := fun _ => false, listdir := fun _ => [],
    readSubs := fun _ => .error .valueError,
    readVolumeStats := fun _ => .ok (-20, -1),
    readSilences := fun _ _ _ => .ok [],
    report := true }

/-- Collaborators for which extraction succeeds but volume analysis fails
with `ValueError`. -/
def envAudioFail : Env :=
  { cwd := "/c", isDir := fun _ => false, listdir := fun _ => [],
    readSubs := fun _ => .ok [⟨0, 10, false, "hello"⟩],
    readVolumeStats := fun _ => .error .valueError,
    readSilences := fun _ _ _ => .ok [],
    report := true }

/-- A filesystem with one directory `d` holding one file `f`; extraction
yields no events and audio analysis succeeds with mean volume -20 dB. -/
def envDir : Env :=
  { cwd := "/c", isDir := fun p => p == "d", listdir := fun _ => ["f"],
    readSubs := fun _ => .ok [],
    readVolumeStats := fun _ => .ok (-20, -1),
    readSilences := fun _ _ _ => .ok [],
    report := false }

/-- Collaborators for the relative-policy scenario: working directory `/w`,
one file `db/a.mkv`, extraction yields one event, audio analysis
succeeds. -/
def envRel : Env :=
  { cwd := "/w", isDir := fun _ => false, listdir := fun _ => [],
    readSubs := fun _ => .ok [⟨0, 10, false, "hello"⟩],
    readVolumeStats := fun _ => .ok (-20, -1),
    readSilences := fun _ _ _ => .ok [(1, 2, 1)],
    report := false }

/-! ## Theorems -/

/-- On a list that is descending in `key`, `find?` returns an element whose
`key` is maximal among all satisfying elements. -/
theorem find?_max_of_pairwise {α : Type} (key : α → ℚ) (p : α → Bool) :
    ∀ m : List α, m.Pairwise (fun a b => key b ≤ key a) →
      ∀ u, m.find? p = some u → ∀ t ∈ m, p t = true → key t ≤ key u := by
  intro m
  induction m with
  | nil => intro _ u hu; simp at hu
  | cons a as ih =>
    intro hp u hu t ht hpt
    rcases List.pairwise_cons.mp hp with ⟨ha, htail⟩
    by_cases hpa : p a
    · rw [List.find?_cons_of_pos _ hpa] at hu
      obtain rfl : a = u := by injection hu
      rcases List.mem_cons.mp ht with rfl | hmem
      · exact le_refl _
      · exact ha t hmem
    · rw [List.find?_cons_of_neg _ (by simpa using hpa)] at hu
      rcases List.mem_cons.mp ht with rfl | hmem
      · exact absurd hpt hpa
      · exact ih htail u hu t hmem hpt

/-- The silence picked by a first-match scan over the reversed
ascending-sorted list starts no earlier than any other qualifying silence. -/
theorem postroll_pick_latest (silences : List Silence) (q w : ℚ)
    (hs : silences.Pairwise (fun a b => a.1 ≤ b.1)) (u : Silence)
    (hu : silences.reverse.find? (postPred q w) = some u) :
    ∀ t ∈ silences, postPred q w t = true → t.1 ≤ u.1 := by
  intro t ht hpt
  have hrev : silences.reverse.Pairwise (fun a b : Silence => b.1 ≤ a.1) := by
    rw [List.pairwise_reverse]; exact hs
  exact find?_max_of_pairwise (fun s : Silence => s.1) (postPred q w)
    silences.reverse hrev u hu t (List.mem_reverse.mpr ht) hpt

/-- C1: for every event with `end ≥ start`, `wiggle ≥ 0` and silence list
sorted ascending by start, the post-roll step of `get_clip_times` scans the
reversed list and takes the first interval whose start lies in
`[eventEnd - wiggle, eventEnd + wiggle]` — the latest-starting qualifying
silence — and applies the clamped duration formula, so the returned duration
is never negative (and the resolver is a total function: it raises no
error). -/
theorem subsearch_c1_post_roll (evStart evEnd : ℤ) (silences : List Silence)
    (wiggle : ℚ) (hse : evStart ≤ evEnd) (hw : 0 ≤ wiggle)
    (hsorted : silences.Pairwise (fun a b => a.1 ≤ b.1)) :
    ((get_clip_times evStart evEnd silences wiggle).2 =
      match silences.reverse.find? (postPred ((evEnd : ℚ) / 1000) wiggle) with
      | some t =>
          max (min ((t.1 + min (t.2.2 / 3) (wiggle / 2)) -
                  (get_clip_times evStart evEnd silences wiggle).1)
                (((evEnd : ℚ) / 1000 + wiggle) -
                  (get_clip_times evStart evEnd silences wiggle).1)) 0
      | none => ((evEnd : ℚ) / 1000 - (evStart : ℚ) / 1000) + wiggle)
    ∧ (∀ u, silences.reverse.find? (postPred ((evEnd : ℚ) / 1000) wiggle) = some u →
        ∀ t ∈ silences, postPred ((evEnd : ℚ) / 1000) wiggle t = true → t.1 ≤ u.1)
    ∧ 0 ≤ (get_clip_times evStart evEnd silences wiggle).2 := by
  refine ⟨?_, fun u hu => postroll_pick_latest silences _ _ hsorted u hu, ?_⟩
  · cases hfind : silences.reverse.find? (postPred ((evEnd : ℚ) / 1000) wiggle) with
    | none => simp only [get_clip_times, hfind]
    | some t => simp only [get_clip_times, hfind]
  · cases hfind : silences.reverse.find? (postPred ((evEnd : ℚ) / 1000) wiggle) with
    | none =>
      simp only [get_clip_times, hfind]
      have key : (0 : ℚ) ≤ ((evEnd : ℚ) - (evStart : ℚ)) / 1000 :=
        div_nonneg (sub_nonneg.mpr (by exact_mod_cast hse)) (by norm_num)
      rw [sub_div] at key
      exact add_nonneg key hw
    | some t =>
      simp only [get_clip_times, hfind]
      exact le_max_right _ 0

/-- C1 witness. -/
theorem subsearch_c1_post_roll_witness : 0 ≤ (get_clip_times 0 1000 [] 1).2 :=
  (subsearch_c1_post_roll 0 1000 [] 1 (by decide) (by norm_num)
    List.Pairwise.nil).2.2

/-- C2: the pre-roll step of `get_clip_times` scans the silence list in
ascending order and takes the first interval whose end lies in
`[eventStart - wiggle, eventStart + wiggle]`, applying the snap formula; in
particular with eventStart 10.0s, wiggle 1.0 and the single silence
(9.2, 9.6, 0.4), the clip start is 142/15 (≈ 9.467). -/
theorem subsearch_c2_pre_roll (evStart evEnd : ℤ) (silences : List Silence)
    (wiggle : ℚ) (_hsorted : silences.Pairwise (fun a b => a.1 ≤ b.1)) :
    ((get_clip_times evStart evEnd silences wiggle).1 =
      match silences.find? (prePred ((evStart : ℚ) / 1000) wiggle) with
      | some t =>
          max (max (t.2.1 - min (t.2.2 / 3) (wiggle / 2))
            ((evStart : ℚ) / 1000 - wiggle)) 0
      | none => (evStart : ℚ) / 1000 - wiggle / 2)
    ∧ (get_clip_times 10000 12000 [(92/10, 96/10, 4/10)] 1).1 = 142/15 := by
  constructor
  · cases hfind : silences.find? (prePred ((evStart : ℚ) / 1000) wiggle) with
    | none => simp only [get_clip_times, hfind]
    | some t => simp only [get_clip_times, hfind]
  · norm_num [get_clip_times, List.find?, prePred, postPred]

/-- C2 witness. -/
theorem subsearch_c2_pre_roll_witness :
    (get_clip_times 10000 12000 [(92/10, 96/10, 4/10)] 1).1 = 142/15 :=
  (subsearch_c2_pre_roll 10000 12000 [(92/10, 96/10, 4/10)] 1 (by simp)).2

/-- C3: when no silence qualifies in either scan (in particular when the
list is empty), `get_clip_times` returns the defaults
`clipStart = eventStartMs/1000 - wiggle/2` and
`clipDuration = (eventEndMs - eventStartMs)/1000 + wiggle`; in particular
`get_clip_times 1000 3000 [] 1 = (0.5, 3)`. -/
theorem subsearch_c3_defaults (evStart evEnd : ℤ) (silences : List Silence)
    (wiggle : ℚ)
    (hpre : silences.find? (prePred ((evStart : ℚ) / 1000) wiggle) = none)
    (hpost : silences.reverse.find? (postPred ((evEnd : ℚ) / 1000) wiggle) = none) :
    get_clip_times evStart evEnd silences wiggle =
      ((evStart : ℚ) / 1000 - wiggle / 2,
        ((evEnd : ℚ) - (evStart : ℚ)) / 1000 + wiggle)
    ∧ get_clip_times 1000 3000 [] 1 = (1/2, 3) := by
  constructor
  · simp only [get_clip_times, hpre, hpost, Prod.mk.injEq]
    refine ⟨trivial, ?_⟩
    rw [sub_div]
  · norm_num [get_clip_times]

/-- C3 witness. -/
theorem subsearch_c3_defaults_witness :
    get_clip_times 2000 5000 [] 2 =
      (((2000 : ℤ) : ℚ) / 1000 - 2 / 2,
        (((5000 : ℤ) : ℚ) - ((2000 : ℤ) : ℚ)) / 1000 + 2) :=
  (subsearch_c3_defaults 2000 5000 [] 2 rfl rfl).1

/-- Looking up the key just written by `cache_set` yields the written
value. -/
theorem cache_set_lookup {κ ν : Type} [DecidableEq κ] (store : CacheStore κ ν)
    (key : κ) (v : ν) : cache_set store key v (normalize_key key) = some v := by
  simp [cache_set]

/-- C6: `set(key, v); get(key)` returns `v`; across two successive
`get(key, onMiss)` calls with no intervening `pop`, the callback is invoked
at most once in total and the second call is served from the stored entry;
equal keys always map to the same hash-derived storage name. -/
theorem subsearch_c6_cache_determinism {κ ν : Type} [DecidableEq κ]
    (store : CacheStore κ ν) (key : κ) (v v1 : ν)
    (g1 g2 : Unit → Except PyErr ν) (hg1 : g1 () = .ok v1) :
    (∀ miss, cache_get (cache_set store key v) key miss =
      .ok (v, cache_set store key v, 0))
    ∧ (∀ r s n, cache_get store key (.fn g1) = .ok (r, s, n) →
        n ≤ 1 ∧ cache_get s key (.fn g2) = .ok (r, s, 0))
    ∧ (∀ k2 : κ, key = k2 → normalize_key key = normalize_key k2) := by
  refine ⟨fun miss => ?_, fun r s n h => ?_, fun k2 h => by rw [h]⟩
  · unfold cache_get
    rw [cache_set_lookup]
  · cases hstore : store (normalize_key key) with
    | some w =>
      simp only [cache_get, hstore] at h
      simp only [Except.ok.injEq, Prod.mk.injEq] at h
      obtain ⟨rfl, rfl, rfl⟩ := h
      exact ⟨by norm_num, by simp [cache_get, hstore]⟩
    | none =>
      simp only [cache_get, hstore, hg1, Except.map] at h
      simp only [Except.ok.injEq, Prod.mk.injEq] at h
      obtain ⟨rfl, rfl, rfl⟩ := h
      exact ⟨le_refl 1, by simp [cache_get, cache_set_lookup]⟩

/-- C6 witness. -/
theorem subsearch_c6_cache_determinism_witness :
    cache_get (cache_set (fun _ => none : CacheStore Nat Nat) 5 7) 5 (.plain 0) =
      .ok (7, cache_set (fun _ => none : CacheStore Nat Nat) 5 7, 0) :=
  (subsearch_c6_cache_determinism (fun _ => none) 5 7 9
    (fun _ => .ok 9) (fun _ => .ok 9) rfl).1 (.plain 0)

/-- C7: on a key with no stored entry, `get` with a plain (non-callback)
default returns that default unchanged and performs no store write; `get`
with a callback invokes it (at most once — exactly once when it succeeds)
and its result is stored via `set` before being returned. -/
theorem subsearch_c7_cache_miss_default {κ ν : Type} [DecidableEq κ]
    (store : CacheStore κ ν) (key : κ) (d v : ν) (f : Unit → Except PyErr ν)
    (hmiss : store (normalize_key key) = none) (hf : f () = .ok v) :
    cache_get store key (.plain d) = .ok (d, store, 0)
    ∧ cache_get store key (.fn f) = .ok (v, cache_set store key v, 1) := by
  constructor
  · simp [cache_get, hmiss]
  · simp [cache_get, hmiss, hf, Except.map]

/-- C7 witness. -/
theorem subsearch_c7_cache_miss_default_witness :
    cache_get (fun _ => none : CacheStore Nat Nat) 5 (.plain 3) =
      .ok (3, (fun _ => none : CacheStore Nat Nat), 0) :=
  (subsearch_c7_cache_miss_default (fun _ => none) 5 3 7
    (fun _ => .ok 7) rfl rfl).1

/-- After `pop`, the popped key's storage file is gone. -/
theorem cache_pop_lookup_gone {κ ν : Type} [DecidableEq κ] (dflt : ν)
    (store : CacheStore κ ν) (key : κ) :
    (cache_pop dflt store key).2 (normalize_key key) = none := by
  simp [cache_pop]

/-- `pop` leaves every other storage file alone. -/
theorem cache_pop_lookup_other {κ ν : Type} [DecidableEq κ] (dflt : ν)
    (store : CacheStore κ ν) (key q : κ) (h : ¬q = normalize_key key) :
    (cache_pop dflt store key).2 q = store q := by
  simp [cache_pop, h]

theorem reportMsg_dbPath (env : Env) (st : DBState) (m : String) :
    (reportMsg env st m).dbPath = st.dbPath := by
  unfold reportMsg; split <;> rfl

theorem reportMsg_relative (env : Env) (st : DBState) (m : String) :
    (reportMsg env st m).relative = st.relative := by
  unfold reportMsg; split <;> rfl

theorem reportMsg_docs (env : Env) (st : DBState) (m : String) :
    (reportMsg env st m).docs = st.docs := by
  unfold reportMsg; split <;> rfl

theorem reportMsg_cache (env : Env) (st : DBState) (m : String) :
    (reportMsg env st m).cache = st.cache := by
  unfold reportMsg; split <;> rfl

/-- The two cache keys of one path differ (different tags). -/
theorem volume_key_ne_silences_key (s : String) :
    ((s, "volume_stats") : String × String) ≠ (s, "silences") := by
  intro h
  have : ("volume_stats" : String) = "silences" := congrArg Prod.snd h
  exact absurd this (by decide)

/-- C8: `remove` on a file resolves the path per the relative policy,
deletes exactly the documents whose stored path equals the resolved path,
and evicts both cache entries for that path; removing a path with no
indexed documents does not error and leaves the index unchanged; and after
`add` with audio processing followed by `remove`, a cache `get` for
`(path, "silences")` with a plain default returns the default, not stale
data. -/
theorem subsearch_c8_remove (env : Env) (st : DBState) (p : String)
    (relArg : Option Bool) (fuel : Nat) (hdir : env.isDir p = false) :
    Database.remove env (fuel + 1) st p relArg =
      .ok (Database.removeFile env st p relArg)
    ∧ (Database.removeFile env st p relArg).docs =
        st.docs.filter
          (fun d => d.path != storePath env.cwd st.dbPath (relArg.getD st.relative) p)
    ∧ (Database.removeFile env st p relArg).cache
        (normalize_key (storePath env.cwd st.dbPath (relArg.getD st.relative) p,
          "volume_stats")) = none
    ∧ (Database.removeFile env st p relArg).cache
        (normalize_key (storePath env.cwd st.dbPath (relArg.getD st.relative) p,
          "silences")) = none
    ∧ ((∀ d ∈ st.docs,
          d.path ≠ storePath env.cwd st.dbPath (relArg.getD st.relative) p) →
        (Database.removeFile env st p relArg).docs = st.docs)
    ∧ (∀ dflt, cache_get (Database.removeFile env st p relArg).cache
          (storePath env.cwd st.dbPath (relArg.getD st.relative) p, "silences")
          (.plain dflt) =
        .ok (dflt, (Database.removeFile env st p relArg).cache, 0))
    ∧ (∀ w st2, Database.addFile env st p relArg true w = .ok st2 →
        ∀ dflt, cache_get (Database.removeFile env st2 p relArg).cache
            (storePath env.cwd st2.dbPath (relArg.getD st2.relative) p, "silences")
            (.plain dflt) =
          .ok (dflt, (Database.removeFile env st2 p relArg).cache, 0)) := by
  have hdocs : ∀ s : DBState, (Database.removeFile env s p relArg).docs =
      s.docs.filter
        (fun d => d.path != storePath env.cwd s.dbPath (relArg.getD s.relative) p) := by
    intro s
    simp [Database.removeFile, reportMsg_docs, reportMsg_dbPath, reportMsg_relative]
  have hsil : ∀ s : DBState, (Database.removeFile env s p relArg).cache
      (normalize_key (storePath env.cwd s.dbPath (relArg.getD s.relative) p,
        "silences")) = none := by
    intro s
    simp only [Database.removeFile, reportMsg_dbPath, reportMsg_relative,
      reportMsg_cache]
    exact cache_pop_lookup_gone _ _ _
  have hget : ∀ (s : DBState) (dflt : JVal),
      cache_get (Database.removeFile env s p relArg).cache
        (storePath env.cwd s.dbPath (relArg.getD s.relative) p, "silences")
        (.plain dflt) =
      .ok (dflt, (Database.removeFile env s p relArg).cache, 0) := by
    intro s dflt
    simp [cache_get, hsil s]
  refine ⟨by simp [Database.remove, hdir], hdocs st, ?_, hsil st, ?_, hget st, ?_⟩
  · simp only [Database.removeFile, reportMsg_dbPath, reportMsg_relative,
      reportMsg_cache]
    rw [cache_pop_lookup_other _ _ _ _ (by
      simp only [normalize_key]
      exact volume_key_ne_silences_key _)]
    exact cache_pop_lookup_gone _ _ _
  · intro hnone
    rw [hdocs st]
    apply List.filter_eq_self.mpr
    intro d hd
    simpa [bne_iff_ne] using hnone d hd
  · intro w st2 _ dflt
    exact hget st2 dflt

/-- C8 witness. -/
theorem subsearch_c8_remove_witness :
    Database.remove envOk 1 st0 "a" none =
      .ok (Database.removeFile envOk st0 "a" none) :=
  (subsearch_c8_remove envOk st0 "a" none 0 rfl).1

/-- C4 counterexample: two files to add, extraction succeeds on both, but
volume analysis raises `ValueError` on the first.  Contrary to the claim,
the failure is not caught and not reported: the batch aborts with the
uncaught error and the second file is never processed. -/
theorem subsearch_c4_counterexample :
    batch_add envAudioFail 1 st0 ["a", "b"] none true 1 = .error .valueError := by
  rfl

/-- C4 amended: during a batch add, a per-file subtitle-EXTRACTION failure
(`CalledProcessError` or `ValueError`) is caught, reported through the
caller-supplied reporting callback, commits no documents for the failing
file, and processing continues with the next file; but an audio-analysis
failure when audio processing is requested is NOT caught — it propagates
out of `Database.add` and aborts the batch. -/
theorem subsearch_c4_amended :
    (∀ (env : Env) (st : DBState) (fuel : Nat) (p : String) (rest : List String)
        (relArg : Option Bool) (pa : Bool) (w : ℚ),
      env.isDir p = false → env.report = true →
      (env.readSubs p = .error .calledProcessError ∨
        env.readSubs p = .error .valueError) →
      Database.add env (fuel + 1) st p relArg pa w =
        .ok { st with reports := (st.reports ++
          [storePath env.cwd st.dbPath (relArg.getD st.relative) p]) ++
          ["!!! Error extracting subtitles..."] }
      ∧ batch_add env (fuel + 1) st (p :: rest) relArg pa w =
        batch_add env (fuel + 1)
          { st with reports := (st.reports ++
            [storePath env.cwd st.dbPath (relArg.getD st.relative) p]) ++
            ["!!! Error extracting subtitles..."] } rest relArg pa w)
    ∧ (∀ (env : Env) (st : DBState) (fuel : Nat) (p : String)
        (relArg : Option Bool) (w : ℚ) (e : PyErr) (evs : List SubEvent),
      env.isDir p = false → env.readSubs p = .ok evs →
      env.readVolumeStats (storePath env.cwd st.dbPath (relArg.getD st.relative) p) =
        .error e →
      Database.add env (fuel + 1) st p relArg true w = .error e) := by
  constructor
  · intro env st fuel p rest relArg pa w hdir hrep hsubs
    have hadd : Database.add env (fuel + 1) st p relArg pa w =
        .ok { st with reports := (st.reports ++
          [storePath env.cwd st.dbPath (relArg.getD st.relative) p]) ++
          ["!!! Error extracting subtitles..."] } := by
      rcases hsubs with h | h <;>
        simp [Database.add, Database.addFile, hdir, h, reportMsg, hrep]
    refine ⟨hadd, ?_⟩
    simp only [batch_add, List.foldlM_cons, hadd]
    rfl
  · intro env st fuel p relArg w e evs hdir hsubs hvol
    simp [Database.add, Database.addFile, hdir, hsubs, hvol]

/-- C4 witness (for the amended claim): a concrete extraction failure is
caught and reported, and a concrete audio-analysis failure aborts the
add. -/
theorem subsearch_c4_amended_witness :
    Database.add envExtractFail 1 st0 "a" none false 1 =
      .ok { st0 with reports := (st0.reports ++
        [storePath envExtractFail.cwd st0.dbPath
          ((none : Option Bool).getD st0.relative) "a"]) ++
        ["!!! Error extracting subtitles..."] }
    ∧ Database.add envAudioFail 1 st0 "a" none true 1 = .error .valueError :=
  ⟨(subsearch_c4_amended.1 envExtractFail st0 0 "a" [] none false 1 rfl rfl
      (Or.inr rfl)).1,
    subsearch_c4_amended.2 envAudioFail st0 0 "a" none 1 .valueError
      [⟨0, 10, false, "hello"⟩] rfl rfl rfl⟩

/-- C9 (code bug): `Database.add` on a directory recurses in sorted order
with the same subtitle source, reporter, resolved relative policy and
audio-processing flag, but NOT the same wiggle tolerance: the recursive
calls use the default `wiggle = 1.0` (line 340 omits `wiggle=wiggle`), so
adding a directory is wiggle-invariant; concretely, adding directory `d`
containing file `f` with `wiggle = 2` invokes silence detection with
minimum duration `0.3` (from the default), while adding `d/f` directly with
`wiggle = 2` invokes it with `0.6`. -/
theorem subsearch_c9_wiggle_not_forwarded (env : Env) (fuel : Nat)
    (st : DBState) (p : String) (relArg : Option Bool) (pa : Bool) (w w2 : ℚ)
    (hdir : env.isDir p = true) :
    (Database.add env (fuel + 1) st p relArg pa w =
      (sortStrings (env.listdir p)).foldlM
        (fun acc entry => Database.add env fuel acc (joinPath p entry)
          (some (relArg.getD st.relative)) pa 1) st)
    ∧ Database.add env (fuel + 1) st p relArg pa w =
        Database.add env (fuel + 1) st p relArg pa w2
    ∧ (Database.add envDir 2 st0 "d" none true 2).map (fun s => s.silenceCalls) =
        .ok [("/c/d/f", -18, 3/10)]
    ∧ (Database.addFile envDir st0 "d/f" (some false) true 2).map
        (fun s => s.silenceCalls) = .ok [("/c/d/f", -18, 6/10)] := by
  have h : ∀ w' : ℚ, Database.add env (fuel + 1) st p relArg pa w' =
      (sortStrings (env.listdir p)).foldlM
        (fun acc entry => Database.add env fuel acc (joinPath p entry)
          (some (relArg.getD st.relative)) pa 1) st := by
    intro w'
    simp [Database.add, hdir]
  have h3 : (Database.add envDir 2 st0 "d" none true 2).map
      (fun s => s.silenceCalls) =
      .ok [("/c/d/f", (-20 : ℚ) * (9 / 10), (3 / 10 : ℚ) * 1)] := rfl
  have h4 : (Database.addFile envDir st0 "d/f" (some false) true 2).map
      (fun s => s.silenceCalls) =
      .ok [("/c/d/f", (-20 : ℚ) * (9 / 10), (3 / 10 : ℚ) * 2)] := rfl
  rw [show ((-20 : ℚ) * (9 / 10)) = -18 by norm_num,
    show ((3 / 10 : ℚ) * 1) = 3 / 10 by norm_num] at h3
  rw [show ((-20 : ℚ) * (9 / 10)) = -18 by norm_num,
    show ((3 / 10 : ℚ) * 2) = 6 / 10 by norm_num] at h4
  exact ⟨h w, (h w).trans (h w2).symm, h3, h4⟩

/-- C9 witness: adding the directory with wiggle 2 and with wiggle 1 is the
same operation. -/
theorem subsearch_c9_wiggle_not_forwarded_witness :
    Database.add envDir 2 st0 "d" none true 2 =
      Database.add envDir 2 st0 "d" none true 1 :=
  (subsearch_c9_wiggle_not_forwarded envDir 1 st0 "d" none true 2 1 rfl).2.1

/-! ### Path lemmas: `normpath` is idempotent on absolute paths -/

theorem splitSep_ne_nil (s : List Char) : splitSep s ≠ [] := by
  induction s with
  | nil => simp [splitSep]
  | cons c rest ih =>
    unfold splitSep
    split
    · simp
    · cases h : splitSep rest with
      | nil => simp
      | cons p ps => simp

theorem mem_splitSep_no_sep (s : List Char) : ∀ p ∈ splitSep s, '/' ∉ p := by
  induction s with
  | nil =>
    intro p hp
    simp [splitSep] at hp
    subst hp; simp
  | cons c rest ih =>
    intro p hp
    unfold splitSep at hp
    by_cases hc : c = '/'
    · rw [if_pos hc] at hp
      rcases List.mem_cons.mp hp with rfl | h
      · simp
      · exact ih p h
    · rw [if_neg hc] at hp
      cases h : splitSep rest with
      | nil => exact absurd h (splitSep_ne_nil rest)
      | cons q qs =>
        rw [h] at hp
        have hq : '/' ∉ q := ih q (by rw [h]; exact List.mem_cons_self q qs)
        rcases List.mem_cons.mp hp with rfl | hmem
        · intro hin
          rcases List.mem_cons.mp hin with h1 | h2
          · exact hc h1.symm
          · exact hq h2
        · exact ih p (by rw [h]; exact List.mem_cons_of_mem q hmem)

theorem splitSep_no_sep (p : List Char) (h : '/' ∉ p) : splitSep p = [p] := by
  induction p with
  | nil => rfl
  | cons a p ih =>
    have ha : ¬a = '/' := fun e => h (List.mem_cons.mpr (Or.inl e.symm))
    unfold splitSep
    rw [if_neg ha, ih (fun hm => h (List.mem_cons_of_mem a hm))]

theorem splitSep_append_sep (p t : List Char) (h : '/' ∉ p) :
    splitSep (p ++ '/' :: t) = p :: splitSep t := by
  induction p with
  | nil => simp [splitSep]
  | cons a p ih =>
    have ha : ¬a = '/' := fun e => h (List.mem_cons.mpr (Or.inl e.symm))
    have ih' := ih (fun hm => h (List.mem_cons_of_mem a hm))
    show splitSep (a :: (p ++ '/' :: t)) = (a :: p) :: splitSep t
    conv_lhs => rw [splitSep]
    rw [if_neg ha, ih']

theorem splitSep_intercalateSep :
    ∀ comps : List (List Char), comps ≠ [] → (∀ p ∈ comps, '/' ∉ p) →
      splitSep (intercalateSep comps) = comps := by
  intro comps
  induction comps with
  | nil => intro h; exact absurd rfl h
  | cons c rest ih =>
    intro _ hns
    cases rest with
    | nil =>
      simpa [intercalateSep] using
        splitSep_no_sep c (hns c (List.mem_cons_self c []))
    | cons c2 rest2 =>
      show splitSep (c ++ '/' :: intercalateSep (c2 :: rest2)) = c :: c2 :: rest2
      rw [splitSep_append_sep c _ (hns c (List.mem_cons_self _ _))]
      rw [ih (by simp) (fun p hp => hns p (List.mem_cons_of_mem c hp))]

theorem splitSep_replicate (k : Nat) (t : List Char) :
    splitSep (List.replicate k '/' ++ t) = List.replicate k [] ++ splitSep t := by
  induction k with
  | zero => simp
  | succ k ih => simp [List.replicate_succ, splitSep, ih]

theorem normComps_skip_empty (hb : Bool) (acc : List (List Char)) (k : Nat)
    (l : List (List Char)) :
    normComps hb acc (List.replicate k [] ++ l) = normComps hb acc l := by
  induction k with
  | zero => simp
  | succ k ih => simp [List.replicate_succ, normComps, ih]

theorem normComps_clean_append (hb : Bool) :
    ∀ (l acc : List (List Char)),
      (∀ c ∈ l, c ≠ [] ∧ c ≠ ['.'] ∧ c ≠ ['.', '.']) →
      normComps hb acc l = acc.reverse ++ l := by
  intro l
  induction l with
  | nil => intro acc _; simp [normComps]
  | cons c rest ih =>
    intro acc hl
    obtain ⟨h1, h2, h3⟩ := hl c (List.mem_cons_self c rest)
    unfold normComps
    rw [if_neg (by simp [h1, h2]), if_pos (Or.inl h3)]
    rw [ih (c :: acc) (fun x hx => hl x (List.mem_cons_of_mem c hx))]
    simp

theorem normComps_mem_clean :
    ∀ l acc : List (List Char),
      (∀ c ∈ l, '/' ∉ c) → (∀ c ∈ acc, CleanComp c) →
      ∀ c ∈ normComps true acc l, CleanComp c := by
  intro l
  induction l with
  | nil =>
    intro acc _ hacc c hc
    simp only [normComps, List.mem_reverse] at hc
    exact hacc c hc
  | cons d rest ih =>
    intro acc hl hacc c hc
    have hd : '/' ∉ d := hl d (List.mem_cons_self d rest)
    have hlr : ∀ x ∈ rest, '/' ∉ x := fun x hx => hl x (List.mem_cons_of_mem d hx)
    unfold normComps at hc
    by_cases h1 : d = [] ∨ d = ['.']
    · rw [if_pos h1] at hc
      exact ih acc hlr hacc c hc
    · rw [if_neg h1] at hc
      by_cases h2 : d = ['.', '.']
      · cases acc with
        | nil =>
          rw [if_neg (by simp [h2])] at hc
          exact ih [] hlr (by simp) c hc
        | cons a as =>
          have hane : a ≠ ['.', '.'] := (hacc a (List.mem_cons_self a as)).2.2.1
          rw [if_neg (by simp [h2, hane])] at hc
          exact ih as hlr (fun x hx => hacc x (List.mem_cons_of_mem a hx)) c hc
      · rw [if_pos (Or.inl h2)] at hc
        have hdclean : CleanComp d := ⟨(not_or.mp h1).1, (not_or.mp h1).2, h2, hd⟩
        refine ih (d :: acc) hlr (fun x hx => ?_) c hc
        rcases List.mem_cons.mp hx with rfl | hx'
        · exact hdclean
        · exact hacc x hx'

theorem intercalateSep_cons_head (a : Char) (c : List Char)
    (rest : List (List Char)) :
    ∃ t, intercalateSep ((a :: c) :: rest) = a :: t := by
  cases rest with
  | nil => exact ⟨c, rfl⟩
  | cons d rest2 => exact ⟨c ++ '/' :: intercalateSep (d :: rest2), rfl⟩

theorem islashesData_out (k : Nat) (hk : k = 1 ∨ k = 2) (c : List Char)
    (rest : List (List Char)) (hne : c ≠ []) (hns : '/' ∉ c) :
    islashesData (List.replicate k '/' ++ intercalateSep (c :: rest)) = k := by
  obtain ⟨a, c', rfl⟩ : ∃ a c', c = a :: c' := by
    cases c with
    | nil => exact absurd rfl hne
    | cons a c' => exact ⟨a, c', rfl⟩
  have ha : ¬a = '/' := fun e => hns (List.mem_cons.mpr (Or.inl e.symm))
  obtain ⟨t, ht⟩ := intercalateSep_cons_head a c' rest
  rw [ht]
  rcases hk with rfl | rfl
  · simp [islashesData, List.replicate, List.take, ha]
  · simp [islashesData, List.replicate, List.take, ha]

theorem normpathData_abs_form (s : List Char) (habs : isAbsData s = true) :
    ∃ (k : Nat) (comps : List (List Char)),
      (k = 1 ∨ k = 2) ∧ (∀ c ∈ comps, CleanComp c) ∧
      normpathData s = List.replicate k '/' ++ intercalateSep comps := by
  obtain ⟨s₀, rfl⟩ : ∃ s₀, s = '/' :: s₀ := by
    cases s with
    | nil => simp [isAbsData] at habs
    | cons c cs =>
      have hc : c = '/' := by simpa [isAbsData] using habs
      exact ⟨cs, by rw [hc]⟩
  have hclean : ∀ c ∈ normComps true [] (splitSep ('/' :: s₀)), CleanComp c :=
    normComps_mem_clean _ [] (fun c hc => mem_splitSep_no_sep _ c hc) (by simp)
  have hk : islashesData ('/' :: s₀) = 1 ∨ islashesData ('/' :: s₀) = 2 := by
    unfold islashesData
    rw [if_pos (by simp [List.take])]
    split
    · exact Or.inr rfl
    · exact Or.inl rfl
  have hbool : (islashesData ('/' :: s₀) != 0) = true := by
    rcases hk with h | h <;> rw [h] <;> rfl
  refine ⟨islashesData ('/' :: s₀), normComps true [] (splitSep ('/' :: s₀)),
    hk, hclean, ?_⟩
  simp only [normpathData]
  rw [if_neg (show ¬('/' :: s₀ : List Char) = [] by simp), hbool]
  rw [if_neg (show ¬(List.replicate (islashesData ('/' :: s₀)) '/' ++
      intercalateSep (normComps true [] (splitSep ('/' :: s₀))) : List Char) = [] by
    rcases hk with h | h <;> rw [h] <;> simp [List.replicate])]

theorem isAbsData_replicate_append (k : Nat) (hk : k = 1 ∨ k = 2)
    (t : List Char) : isAbsData (List.replicate k '/' ++ t) = true := by
  rcases hk with rfl | rfl <;> simp [List.replicate, isAbsData]

theorem isAbsData_normpathData (s : List Char) (habs : isAbsData s = true) :
    isAbsData (normpathData s) = true := by
  obtain ⟨k, comps, hk, _, hform⟩ := normpathData_abs_form s habs
  rw [hform]
  exact isAbsData_replicate_append k hk _

theorem normpathData_idem_abs (s : List Char) (habs : isAbsData s = true) :
    normpathData (normpathData s) = normpathData s := by
  obtain ⟨k, comps, hk, hclean, hform⟩ := normpathData_abs_form s habs
  rw [hform]
  cases comps with
  | nil =>
    rcases hk with rfl | rfl <;> decide
  | cons c₀ rest =>
    have hc₀ := hclean c₀ (List.mem_cons_self _ _)
    have hne : (List.replicate k '/' ++ intercalateSep (c₀ :: rest) : List Char) ≠ [] := by
      rcases hk with rfl | rfl <;> simp [List.replicate]
    have hbool : (k != 0) = true := by rcases hk with rfl | rfl <;> rfl
    simp only [normpathData]
    rw [if_neg hne, islashesData_out k hk c₀ rest hc₀.1 hc₀.2.2.2, hbool,
      splitSep_replicate,
      splitSep_intercalateSep (c₀ :: rest) (by simp)
        (fun p hp => (hclean p hp).2.2.2),
      normComps_skip_empty,
      normComps_clean_append true (c₀ :: rest) []
        (fun c hc => ⟨(hclean c hc).1, (hclean c hc).2.1, (hclean c hc).2.2.1⟩)]
    simp only [List.reverse_nil, List.nil_append]
    rw [if_neg hne]

theorem joinPathData_abs (a b : List Char) (h : isAbsData b = true) :
    joinPathData a b = b := by
  simp [joinPathData, h]

theorem isAbsData_joinPathData (a b : List Char) (ha : isAbsData a = true) :
    isAbsData (joinPathData a b) = true := by
  obtain ⟨c, a', rfl⟩ : ∃ c a', a = c :: a' := by
    cases a with
    | nil => simp [isAbsData] at ha
    | cons c a' => exact ⟨c, a', rfl⟩
  have hc : c = '/' := by simpa [isAbsData] using ha
  subst hc
  by_cases hb : isAbsData b = true
  · simp [joinPathData, hb]
  · have hb' : isAbsData b = false := by
      revert hb; cases isAbsData b <;> simp
    simp only [joinPathData, hb', Bool.false_eq_true, if_false]
    split <;> simp [isAbsData]

theorem isAbsData_abspathData (cwd s : List Char) (hc : isAbsData cwd = true) :
    isAbsData (abspathData cwd s) = true := by
  unfold abspathData
  split
  · exact isAbsData_normpathData s (by assumption)
  · exact isAbsData_normpathData _ (isAbsData_joinPathData cwd s hc)

theorem normpathData_abspathData (cwd s : List Char)
    (hc : isAbsData cwd = true) :
    normpathData (abspathData cwd s) = abspathData cwd s := by
  unfold abspathData
  split
  · exact normpathData_idem_abs s (by assumption)
  · exact normpathData_idem_abs _ (isAbsData_joinPathData cwd s hc)

/-- A stored absolute path is returned unchanged by the search-side path
resolution: joining it onto the index root yields it back, and normalizing
it a second time changes nothing. -/
theorem resolveResultPath_abspath (dbPath cwd p : String)
    (hc : isabs cwd = true) :
    resolveResultPath dbPath (abspath cwd p) = abspath cwd p := by
  unfold resolveResultPath normpath joinPath abspath
  have habs : isAbsData (abspathData cwd.data p.data) = true :=
    isAbsData_abspathData _ _ hc
  show (⟨normpathData (joinPathData dbPath.data (abspathData cwd.data p.data))⟩ : String) = _
  rw [joinPathData_abs _ _ habs, normpathData_abspathData _ _ hc]

theorem reportMsg_volumeCalls (env : Env) (st : DBState) (m : String) :
    (reportMsg env st m).volumeCalls = st.volumeCalls := by
  unfold reportMsg; split <;> rfl

theorem reportMsg_silenceCalls (env : Env) (st : DBState) (m : String) :
    (reportMsg env st m).silenceCalls = st.silenceCalls := by
  unfold reportMsg; split <;> rfl

/-- `cache_set` leaves every other storage file alone. -/
theorem cache_set_lookup_other {κ ν : Type} [DecidableEq κ]
    (store : CacheStore κ ν) (key q : κ) (v : ν)
    (h : ¬q = normalize_key key) : cache_set store key v q = store q := by
  simp [cache_set, h]

/-- Filtering a mapped list is mapping the filtered list. -/
theorem filter_comm_map {α β : Type} (f : α → β) (q : β → Bool) (l : List α) :
    (l.map f).filter q = (l.filter fun a => q (f a)).map f := by
  induction l with
  | nil => rfl
  | cons a l ih =>
    simp only [List.map_cons, List.filter_cons]
    by_cases h : q (f a)
    · simp [h, ih]
    · simp [h, ih]

/-- What a successful `addFile` does to the document list: the stored path
is unchanged, and exactly the non-comment events are appended. -/
theorem addFile_ok_docs (env : Env) (st : DBState) (p : String)
    (relArg : Option Bool) (pa : Bool) (w : ℚ) (evs : List SubEvent)
    (st2 : DBState) (hsubs : env.readSubs p = .ok evs)
    (hok : Database.addFile env st p relArg pa w = .ok st2) :
    st2.dbPath = st.dbPath ∧
    st2.docs = st.docs ++ (evs.filter fun ev => !ev.isComment).map (fun ev =>
      Doc.mk (storePath env.cwd st.dbPath (relArg.getD st.relative) p)
        ev.start ev.stop ev.plaintext) := by
  simp only [Database.addFile, hsubs] at hok
  cases pa with
  | false =>
    simp only [Bool.false_eq_true, if_false] at hok
    have h := Except.ok.inj hok
    subst h
    simp [reportMsg_dbPath, reportMsg_docs]
  | true =>
    rw [if_pos rfl] at hok
    split at hok
    · exact absurd hok (by simp)
    · split at hok
      · exact absurd hok (by simp)
      · have h := Except.ok.inj hok
        subst h
        simp [reportMsg_dbPath, reportMsg_docs]

/-- C5: a successfully added file indexes exactly its non-comment events
with their start, end and plain text under the policy-resolved stored path;
every search result over the grown index resolves the stored path by
joining it onto the index root and normalizing; and under the absolute
policy that resolution returns the stored absolute path unchanged, so each
result's fields match the originally extracted events. -/
theorem subsearch_c5_round_trip (env : Env) (st : DBState) (p : String)
    (relArg : Option Bool) (pa : Bool) (w : ℚ) (evs : List SubEvent)
    (st2 : DBState) (hsubs : env.readSubs p = .ok evs)
    (hok : Database.addFile env st p relArg pa w = .ok st2)
    (hcwd : isabs env.cwd = true) :
    st2.docs = st.docs ++ (evs.filter fun ev => !ev.isComment).map (fun ev =>
      Doc.mk (storePath env.cwd st.dbPath (relArg.getD st.relative) p)
        ev.start ev.stop ev.plaintext)
    ∧ (∀ matcher : Doc → Bool, Database.search matcher st2 =
        Database.search matcher st ++
          ((evs.filter fun ev => !ev.isComment).filter fun ev =>
            matcher (Doc.mk
              (storePath env.cwd st.dbPath (relArg.getD st.relative) p)
              ev.start ev.stop ev.plaintext)).map (fun ev =>
            Result.mk
              (resolveResultPath st.dbPath
                (storePath env.cwd st.dbPath (relArg.getD st.relative) p))
              ev.plaintext ev.start ev.stop))
    ∧ (relArg.getD st.relative = false →
        resolveResultPath st.dbPath
          (storePath env.cwd st.dbPath (relArg.getD st.relative) p) =
        storePath env.cwd st.dbPath (relArg.getD st.relative) p) := by
  obtain ⟨hdb, hdocs⟩ := addFile_ok_docs env st p relArg pa w evs st2 hsubs hok
  refine ⟨hdocs, fun matcher => ?_, fun hrel => ?_⟩
  · unfold Database.search
    rw [hdocs, hdb, List.filter_append, List.map_append]
    congr 1
    rw [filter_comm_map, List.map_map]
    rfl
  · rw [show storePath env.cwd st.dbPath (relArg.getD st.relative) p =
      abspath env.cwd p by simp [storePath, hrel]]
    exact resolveResultPath_abspath st.dbPath env.cwd p hcwd

/-- C5 witness. -/
theorem subsearch_c5_round_trip_witness :
    resolveResultPath st0.dbPath
      (storePath envOk.cwd st0.dbPath ((none : Option Bool).getD st0.relative) "a") =
    storePath envOk.cwd st0.dbPath ((none : Option Bool).getD st0.relative) "a" :=
  (subsearch_c5_round_trip envOk st0 "a" none false 1
    [⟨0, 10, false, "hello"⟩, ⟨2, 3, true, "note"⟩]
    { dbPath := "/d", relative := false, docs := [Doc.mk "/c/a" 0 10 "hello"],
      cache := emptyCache, reports := ["/c/a"], volumeCalls := [],
      silenceCalls := [] }
    rfl rfl rfl).2.2 rfl

/-- C10: under the relative policy (storage directory different from the
working directory), `add` with audio processing passes the stored RELATIVE
path — not the original file path — to the volume and silence subprocesses
and caches their results under keys built from that stored relative path,
while the search side keys the silence cache by the resolved normalized
path carried on each result; when the two paths differ the keys map to
different storage files, so the search-side lookup misses and never reuses
the analysis cached at add time. -/
theorem subsearch_c10_cache_key_mismatch (env : Env) (st : DBState)
    (p : String) (relArg : Option Bool) (w : ℚ) (evs : List SubEvent)
    (vols : ℚ × ℚ) (sils : List Silence) (st2 : DBState)
    (hrel : relArg.getD st.relative = true)
    (_hcwdne : st.dbPath ≠ env.cwd)
    (hsubs : env.readSubs p = .ok evs)
    (hvol : env.readVolumeStats (storePath env.cwd st.dbPath true p) = .ok vols)
    (hsil : env.readSilences (storePath env.cwd st.dbPath true p)
      (vols.1 * (9 / 10)) ((3 / 10) * w) = .ok sils)
    (hok : Database.addFile env st p relArg true w = .ok st2)
    (hne : storePath env.cwd st.dbPath true p ≠
      resolveResultPath st.dbPath (storePath env.cwd st.dbPath true p))
    (hnep : storePath env.cwd st.dbPath true p ≠ p)
    (hfresh : st.cache (normalize_key
      ((resolveResultPath st.dbPath (storePath env.cwd st.dbPath true p),
        "silences") : String × String)) = none) :
    st2.volumeCalls = st.volumeCalls ++ [storePath env.cwd st.dbPath true p]
    ∧ st2.silenceCalls = st.silenceCalls ++
        [(storePath env.cwd st.dbPath true p, vols.1 * (9 / 10), (3 / 10) * w)]
    ∧ storePath env.cwd st.dbPath true p ≠ p
    ∧ st2.cache (normalize_key
        ((storePath env.cwd st.dbPath true p, "silences") : String × String)) =
        some (encodeSilences sils)
    ∧ st2.cache (normalize_key
        ((storePath env.cwd st.dbPath true p, "volume_stats") : String × String)) =
        some (encodeVol vols)
    ∧ normalize_key
        ((storePath env.cwd st.dbPath true p, "silences") : String × String) ≠
      normalize_key
        ((resolveResultPath st.dbPath (storePath env.cwd st.dbPath true p),
          "silences") : String × String)
    ∧ st2.cache (normalize_key
        ((resolveResultPath st.dbPath (storePath env.cwd st.dbPath true p),
          "silences") : String × String)) = none
    ∧ (∀ f : Unit → Except PyErr JVal,
        cache_get st2.cache
          (resolveResultPath st.dbPath (storePath env.cwd st.dbPath true p),
            "silences") (.fn f) =
        (f ()).map fun v => (v, cache_set st2.cache
          (resolveResultPath st.dbPath (storePath env.cwd st.dbPath true p),
            "silences") v, 1)) := by
  simp only [Database.addFile, hrel, hsubs] at hok
  rw [if_pos trivial] at hok
  simp only [hvol] at hok
  simp only [hsil] at hok
  have h := Except.ok.inj hok
  subst h
  have k1 : ¬((storePath env.cwd st.dbPath true p, "volume_stats") :
      String × String) = normalize_key
        ((storePath env.cwd st.dbPath true p, "silences") : String × String) :=
    volume_key_ne_silences_key _
  have k2 : ¬((resolveResultPath st.dbPath (storePath env.cwd st.dbPath true p),
      "silences") : String × String) = normalize_key
        ((storePath env.cwd st.dbPath true p, "silences") : String × String) :=
    fun h => hne (congrArg Prod.fst h).symm
  have k3 : ¬((resolveResultPath st.dbPath (storePath env.cwd st.dbPath true p),
      "silences") : String × String) = normalize_key
        ((storePath env.cwd st.dbPath true p, "volume_stats") : String × String) := by
    intro h
    exact hne (congrArg Prod.fst h).symm
  have hmiss : (cache_set (cache_set (reportMsg env st
      (storePath env.cwd st.dbPath true p)).cache
        (storePath env.cwd st.dbPath true p, "volume_stats") (encodeVol vols))
        (storePath env.cwd st.dbPath true p, "silences") (encodeSilences sils))
      ((resolveResultPath st.dbPath (storePath env.cwd st.dbPath true p),
        "silences") : String × String) = none := by
    rw [cache_set_lookup_other _ _ _ _ k2, cache_set_lookup_other _ _ _ _ k3,
      reportMsg_cache]
    exact hfresh
  refine ⟨?_, ?_, hnep, ?_, ?_, ?_, ?_, ?_⟩
  · simp [reportMsg_volumeCalls]
  · simp [reportMsg_silenceCalls]
  · simp only [normalize_key]
    exact cache_set_lookup _ _ _
  · simp only [normalize_key]
    rw [cache_set_lookup_other _ _ _ _ k1]
    exact cache_set_lookup _ _ _
  · simp only [normalize_key]
    intro h
    exact hne (congrArg Prod.fst h)
  · simpa only [normalize_key] using hmiss
  · intro f
    simp only [cache_get, normalize_key] at hmiss ⊢
    rw [hmiss]

/-- C10 witness: with index root `db`, working directory `/w` and file
`db/a.mkv`, the add-time key is built from `a.mkv` while the search-time
key is built from `db/a.mkv` — different storage files. -/
theorem subsearch_c10_cache_key_mismatch_witness :
    normalize_key
      ((storePath envRel.cwd stRel.dbPath true "db/a.mkv", "silences") :
        String × String) ≠
    normalize_key
      ((resolveResultPath stRel.dbPath
        (storePath envRel.cwd stRel.dbPath true "db/a.mkv"), "silences") :
        String × String) :=
  (subsearch_c10_cache_key_mismatch envRel stRel "db/a.mkv" none 1
    [⟨0, 10, false, "hello"⟩] (-20, -1) [(1, 2, 1)]
    { dbPath := "db", relative := true, docs := [Doc.mk "a.mkv" 0 10 "hello"],
      cache := cache_set (cache_set emptyCache ("a.mkv", "volume_stats")
        (encodeVol (-20, -1))) ("a.mkv", "silences")
        (encodeSilences [(1, 2, 1)]),
      reports := [], volumeCalls := ["a.mkv"],
      silenceCalls := [("a.mkv", (-20 : ℚ) * (9 / 10), (3 / 10 : ℚ) * 1)] }
    rfl (by decide) rfl rfl rfl rfl (by decide) (by decide) rfl).2.2.2.2.2.1
